import Mathlib

/-!
Verification of the SPSC lock-free ring buffer in `src/core/ring_buffer.h`.

The C++ class `LockFreeRingBuffer<T, Size>` holds a fixed array of `Size`
slots and two cursors `write_idx_` and `read_idx_`.  We embed it as a
structure over an element type `α`, with the template parameter `Size`
stored in the field `size` and the slot array as a `List α`.  The two
member functions `TryPush` and `TryPop` are translated line by line; the
C++ `size_t` indices always stay below `Size` in reachable states, so
plain `Nat` with explicit `% size` is a faithful model.  `TryPop` takes
the caller's output object as a value and returns the (possibly
unchanged) output, modelling the `T* output` parameter.
-/

structure LockFreeRingBuffer (α : Type) where
  size : Nat
  write_idx_ : Nat
  read_idx_ : Nat
  buffer_ : List α
deriving DecidableEq, Repr

/-- C++ `TryPush`:
`current_write = write_idx_; next_write = (current_write + 1) % Size;`
`if (next_write == read_idx_) return false;`
`buffer_[current_write] = item; write_idx_ = next_write; return true;` -/
def TryPush {α : Type} (rb : LockFreeRingBuffer α) (item : α) :
    Bool × LockFreeRingBuffer α :=
  let current_write := rb.write_idx_
  let next_write := (current_write + 1) % rb.size
  if next_write = rb.read_idx_ then
    (false, rb)
  else
    (true, { rb with
               buffer_ := rb.buffer_.set current_write item
               write_idx_ := next_write })

/-- C++ `TryPop`:
`current_read = read_idx_;`
`if (current_read == write_idx_) return false;`
`*output = std::move(buffer_[current_read]);`
`read_idx_ = (current_read + 1) % Size; return true;`
The returned triple is (return value, new buffer state, caller's output
object after the call). -/
def TryPop {α : Type} [Inhabited α] (rb : LockFreeRingBuffer α) (output : α) :
    Bool × LockFreeRingBuffer α × α :=
  let current_read := rb.read_idx_
  if current_read = rb.write_idx_ then
    (false, rb, output)
  else
    (true,
     { rb with read_idx_ := (current_read + 1) % rb.size },
     rb.buffer_.getD current_read default)

/-- A freshly constructed buffer: both cursors zero-initialised, `Size`
default-constructed slots (`std::array<T, Size> buffer_`). -/
def LockFreeRingBuffer.new (α : Type) [Inhabited α] (N : Nat) :
    LockFreeRingBuffer α :=
  { size := N, write_idx_ := 0, read_idx_ := 0,
    buffer_ := List.replicate N default }

/-- Structural well-formedness of a buffer state of capacity `N`:
the stored size is `N`, both cursors are in `[0, N)` and the slot array
has exactly `N` entries. -/
def Valid {α : Type} (N : Nat) (rb : LockFreeRingBuffer α) : Prop :=
  rb.size = N ∧ rb.write_idx_ < N ∧ rb.read_idx_ < N ∧ rb.buffer_.length = N

/-- Number of live elements: `(write - read) mod size`, computed without
Nat underflow. -/
def liveLen {α : Type} (rb : LockFreeRingBuffer α) : Nat :=
  (rb.write_idx_ + rb.size - rb.read_idx_) % rb.size

/-- The live elements in FIFO order: slots `read, read+1, …, write-1`
(indices mod `size`). -/
def contents {α : Type} [Inhabited α] (rb : LockFreeRingBuffer α) : List α :=
  (List.range (liveLen rb)).map
    (fun i => rb.buffer_.getD ((rb.read_idx_ + i) % rb.size) default)

/-- All states a buffer of capacity `N` can be in after any sequence of
push and pop calls starting from a fresh buffer. -/
inductive Reachable (α : Type) [Inhabited α] (N : Nat) :
    LockFreeRingBuffer α → Prop
  | fresh : Reachable α N (LockFreeRingBuffer.new α N)
  | push : ∀ rb x, Reachable α N rb → Reachable α N (TryPush rb x).2
  | pop : ∀ rb o, Reachable α N rb → Reachable α N (TryPop rb o).2.1

/-- Push a whole list, item by item; `none` when some push fails. -/
def pushList {α : Type} :
    LockFreeRingBuffer α → List α → Option (LockFreeRingBuffer α)
  | rb, [] => some rb
  | rb, x :: xs =>
    match TryPush rb x with
    | (true, rb') => pushList rb' xs
    | (false, _) => none

/-- Pop `k` times, collecting the values of the successful pops;
stops at the first failing pop. -/
def popN {α : Type} [Inhabited α] :
    LockFreeRingBuffer α → Nat → List α × LockFreeRingBuffer α
  | rb, 0 => ([], rb)
  | rb, k + 1 =>
    match TryPop rb default with
    | (true, rb', v) =>
      let rest := popN rb' k
      (v :: rest.1, rest.2)
    | (false, rb', _) => ([], rb')

/-- Wrapped distance `(a + N - b) % N` in closed form for in-range `a, b`. -/
lemma wrap_dist_eq (N a b : Nat) (ha : a < N) (hb : b < N) :
    (a + N - b) % N = if b ≤ a then a - b else a + N - b := by
  split
  · have habN : a + N - b = (a - b) + N := by omega
    rw [habN, Nat.add_mod_right, Nat.mod_eq_of_lt (by omega)]
  · exact Nat.mod_eq_of_lt (by omega)

/-- Pushing into a non-full buffer grows the wrapped distance by one. -/
lemma wrap_push_len (N w r : Nat) (hw : w < N) (hr : r < N)
    (h : (w + 1) % N ≠ r) :
    ((w + 1) % N + N - r) % N = (w + N - r) % N + 1 := by
  rcases Nat.lt_or_ge (w + 1) N with hlt | hge
  · rw [Nat.mod_eq_of_lt hlt] at h ⊢
    rw [wrap_dist_eq N (w + 1) r hlt hr, wrap_dist_eq N w r hw hr]
    split <;> split <;> omega
  · have h0 : (w + 1) % N = 0 := by
      have hwN : w + 1 = N := by omega
      rw [hwN, Nat.mod_self]
    rw [h0] at h ⊢
    rw [wrap_dist_eq N 0 r (by omega) hr, wrap_dist_eq N w r hw hr]
    split <;> split <;> omega

/-- Popping from a non-empty buffer shrinks the wrapped distance by one. -/
lemma wrap_pop_len (N w r : Nat) (hw : w < N) (hr : r < N) (h : r ≠ w) :
    (w + N - (r + 1) % N) % N + 1 = (w + N - r) % N := by
  rcases Nat.lt_or_ge (r + 1) N with hlt | hge
  · rw [Nat.mod_eq_of_lt hlt]
    rw [wrap_dist_eq N w (r + 1) hw hlt, wrap_dist_eq N w r hw hr]
    split <;> split <;> omega
  · have h0 : (r + 1) % N = 0 := by
      have hrN : r + 1 = N := by omega
      rw [hrN, Nat.mod_self]
    rw [h0, wrap_dist_eq N w 0 hw (by omega), wrap_dist_eq N w r hw hr]
    split <;> split <;> omega

/-- Indices strictly inside the live region never hit the write cursor. -/
lemma wrap_index_ne (N w r i : Nat) (hw : w < N) (hr : r < N)
    (hi : i < (w + N - r) % N) : (r + i) % N ≠ w := by
  rw [wrap_dist_eq N w r hw hr] at hi
  by_cases hcase : r ≤ w
  · rw [if_pos hcase] at hi
    rw [Nat.mod_eq_of_lt (by omega)]
    omega
  · rw [if_neg hcase] at hi
    rcases Nat.lt_or_ge (r + i) N with hlt | hge
    · rw [Nat.mod_eq_of_lt hlt]; omega
    · rw [Nat.mod_eq_sub_mod hge, Nat.mod_eq_of_lt (by omega)]; omega

/-- The slot one past the live region is exactly the write cursor. -/
lemma wrap_index_eq (N w r : Nat) (hw : w < N) (hr : r < N) :
    (r + (w + N - r) % N) % N = w := by
  rw [Nat.add_mod_mod]
  have hrw : r + (w + N - r) = w + N := by omega
  rw [hrw, Nat.add_mod_right, Nat.mod_eq_of_lt hw]

/-- The buffer is empty exactly when the wrapped distance is zero. -/
lemma wrap_empty_iff (N w r : Nat) (hw : w < N) (hr : r < N) :
    (w + N - r) % N = 0 ↔ r = w := by
  rw [wrap_dist_eq N w r hw hr]
  split <;> omega

/-- The full-test of `TryPush` holds exactly when the wrapped distance is
`N - 1`. -/
lemma wrap_full_iff (N w r : Nat) (hw : w < N) (hr : r < N) :
    (w + 1) % N = r ↔ (w + N - r) % N = N - 1 := by
  rcases Nat.lt_or_ge (w + 1) N with hlt | hge
  · rw [Nat.mod_eq_of_lt hlt, wrap_dist_eq N w r hw hr]
    split <;> omega
  · have h0 : (w + 1) % N = 0 := by
      have hwN : w + 1 = N := by omega
      rw [hwN, Nat.mod_self]
    rw [h0, wrap_dist_eq N w r hw hr]
    split <;> omega

/-- `TryPush` on a full buffer: fails and returns the state unchanged. -/
lemma TryPush_full {α : Type} (rb : LockFreeRingBuffer α) (x : α)
    (h : (rb.write_idx_ + 1) % rb.size = rb.read_idx_) :
    TryPush rb x = (false, rb) := by
  unfold TryPush
  rw [if_pos h]

/-- `TryPush` on a non-full buffer: succeeds, writes the slot at the
write cursor and advances the write cursor. -/
lemma TryPush_not_full {α : Type} (rb : LockFreeRingBuffer α) (x : α)
    (h : (rb.write_idx_ + 1) % rb.size ≠ rb.read_idx_) :
    TryPush rb x =
      (true, { rb with
                 buffer_ := rb.buffer_.set rb.write_idx_ x
                 write_idx_ := (rb.write_idx_ + 1) % rb.size }) := by
  unfold TryPush
  rw [if_neg h]

/-- `TryPop` on an empty buffer: fails, state and output unchanged. -/
lemma TryPop_empty {α : Type} [Inhabited α] (rb : LockFreeRingBuffer α)
    (o : α) (h : rb.read_idx_ = rb.write_idx_) :
    TryPop rb o = (false, rb, o) := by
  unfold TryPop
  rw [if_pos h]

/-- `TryPop` on a non-empty buffer: succeeds, returns the slot at the
read cursor and advances the read cursor. -/
lemma TryPop_nonempty {α : Type} [Inhabited α] (rb : LockFreeRingBuffer α)
    (o : α) (h : rb.read_idx_ ≠ rb.write_idx_) :
    TryPop rb o =
      (true,
       { rb with read_idx_ := (rb.read_idx_ + 1) % rb.size },
       rb.buffer_.getD rb.read_idx_ default) := by
  unfold TryPop
  rw [if_neg h]

/-- `TryPush` preserves well-formedness. -/
lemma Valid_TryPush {α : Type} (N : Nat) (rb : LockFreeRingBuffer α) (x : α)
    (hv : Valid N rb) (hN : 0 < N) : Valid N (TryPush rb x).2 := by
  obtain ⟨hsz, hw, hr, hb⟩ := hv
  by_cases h : (rb.write_idx_ + 1) % rb.size = rb.read_idx_
  · rw [TryPush_full rb x h]
    exact ⟨hsz, hw, hr, hb⟩
  · rw [TryPush_not_full rb x h]
    refine ⟨hsz, ?_, hr, ?_⟩
    · rw [hsz]
      exact Nat.mod_lt _ hN
    · simpa using hb

/-- `TryPop` preserves well-formedness. -/
lemma Valid_TryPop {α : Type} [Inhabited α] (N : Nat)
    (rb : LockFreeRingBuffer α) (o : α) (hv : Valid N rb) (hN : 0 < N) :
    Valid N (TryPop rb o).2.1 := by
  obtain ⟨hsz, hw, hr, hb⟩ := hv
  by_cases h : rb.read_idx_ = rb.write_idx_
  · rw [TryPop_empty rb o h]
    exact ⟨hsz, hw, hr, hb⟩
  · rw [TryPop_nonempty rb o h]
    refine ⟨hsz, hw, ?_, hb⟩
    rw [hsz]
    exact Nat.mod_lt _ hN

/-- The fresh buffer is well-formed. -/
lemma Valid_new (α : Type) [Inhabited α] (N : Nat) (hN : 0 < N) :
    Valid N (LockFreeRingBuffer.new α N) :=
  ⟨rfl, hN, hN, by simp [LockFreeRingBuffer.new]⟩

/-- Every reachable state of a capacity-`N` buffer is well-formed. -/
lemma reachable_valid {α : Type} [Inhabited α] (N : Nat) (hN : 0 < N)
    (rb : LockFreeRingBuffer α) (h : Reachable α N rb) : Valid N rb := by
  induction h with
  | fresh => exact Valid_new α N hN
  | push rb x _ ih => exact Valid_TryPush N rb x ih hN
  | pop rb o _ ih => exact Valid_TryPop N rb o ih hN

/-- `contents` has length `liveLen`. -/
lemma length_contents {α : Type} [Inhabited α] (rb : LockFreeRingBuffer α) :
    (contents rb).length = liveLen rb := by
  simp [contents]

/-- A successful `TryPush` appends the item to the live contents. -/
lemma contents_TryPush {α : Type} [Inhabited α] (N : Nat)
    (rb : LockFreeRingBuffer α) (x : α) (hv : Valid N rb)
    (h : (rb.write_idx_ + 1) % rb.size ≠ rb.read_idx_) :
    contents (TryPush rb x).2 = contents rb ++ [x] := by
  obtain ⟨hsz, hw, hr, hb⟩ := hv
  rw [TryPush_not_full rb x h]
  rw [hsz] at h
  unfold contents liveLen
  dsimp only
  simp only [hsz]
  rw [wrap_push_len N rb.write_idx_ rb.read_idx_ hw hr h]
  rw [List.range_succ, List.map_append]
  congr 1
  · apply List.map_congr_left
    intro i hi
    rw [List.mem_range] at hi
    dsimp only
    have hne : (rb.read_idx_ + i) % N ≠ rb.write_idx_ :=
      wrap_index_ne N rb.write_idx_ rb.read_idx_ i hw hr hi
    rw [List.getD_eq_getElem?_getD, List.getD_eq_getElem?_getD,
      List.getElem?_set_ne (Ne.symm hne)]
  · simp only [List.map_cons, List.map_nil]
    rw [wrap_index_eq N rb.write_idx_ rb.read_idx_ hw hr]
    rw [List.getD_eq_getElem?_getD,
      List.getElem?_set_eq_of_lt x (by omega), Option.getD_some]

/-- A successful `TryPop` removes and returns the head of the live
contents. -/
lemma contents_TryPop {α : Type} [Inhabited α] (N : Nat)
    (rb : LockFreeRingBuffer α) (o : α) (hv : Valid N rb)
    (h : rb.read_idx_ ≠ rb.write_idx_) :
    contents rb = (TryPop rb o).2.2 :: contents (TryPop rb o).2.1 := by
  obtain ⟨hsz, hw, hr, hb⟩ := hv
  rw [TryPop_nonempty rb o h]
  unfold contents liveLen
  dsimp only
  simp only [hsz]
  rw [← wrap_pop_len N rb.write_idx_ rb.read_idx_ hw hr h]
  rw [List.range_succ_eq_map, List.map_cons, List.map_map]
  congr 1
  · dsimp only
    rw [Nat.add_zero, Nat.mod_eq_of_lt hr]
  · apply List.map_congr_left
    intro i hi
    dsimp only [Function.comp]
    rw [Nat.mod_add_mod]
    have hsucc : rb.read_idx_ + Nat.succ i = rb.read_idx_ + 1 + i := by omega
    rw [hsucc]

/-- The full-test of `TryPush` in terms of the live length. -/
lemma full_iff {α : Type} (N : Nat) (rb : LockFreeRingBuffer α)
    (hv : Valid N rb) :
    ((rb.write_idx_ + 1) % rb.size = rb.read_idx_) ↔ liveLen rb = N - 1 := by
  obtain ⟨hsz, hw, hr, _⟩ := hv
  unfold liveLen
  rw [hsz]
  exact wrap_full_iff N rb.write_idx_ rb.read_idx_ hw hr

/-- The empty-test of `TryPop` in terms of the live length. -/
lemma empty_iff {α : Type} (N : Nat) (rb : LockFreeRingBuffer α)
    (hv : Valid N rb) :
    (rb.read_idx_ = rb.write_idx_) ↔ liveLen rb = 0 := by
  obtain ⟨hsz, hw, hr, _⟩ := hv
  unfold liveLen
  rw [hsz]
  exact (wrap_empty_iff N rb.write_idx_ rb.read_idx_ hw hr).symm

/-- `pushList` steps through a successful push. -/
lemma pushList_cons_true {α : Type} (rb rb2 : LockFreeRingBuffer α)
    (x : α) (xs : List α) (h : TryPush rb x = (true, rb2)) :
    pushList rb (x :: xs) = pushList rb2 xs := by
  simp only [pushList, h]

/-- `pushList` aborts at a failing push. -/
lemma pushList_cons_false {α : Type} (rb rb2 : LockFreeRingBuffer α)
    (x : α) (xs : List α) (h : TryPush rb x = (false, rb2)) :
    pushList rb (x :: xs) = none := by
  simp only [pushList, h]

/-- `popN` steps through a successful pop. -/
lemma popN_succ_true {α : Type} [Inhabited α]
    (rb rb2 : LockFreeRingBuffer α) (v : α) (k : Nat)
    (h : TryPop rb default = (true, rb2, v)) :
    popN rb (k + 1) = (v :: (popN rb2 k).1, (popN rb2 k).2) := by
  simp only [popN, h]

/-- When there is room for all of `ps`, pushing the whole list succeeds
and appends `ps` to the live contents. -/
lemma pushList_ok {α : Type} [Inhabited α] (N : Nat) (ps : List α)
    (rb : LockFreeRingBuffer α) (hv : Valid N rb)
    (hroom : liveLen rb + ps.length + 1 ≤ N) :
    ∃ rb', pushList rb ps = some rb' ∧ Valid N rb' ∧
      contents rb' = contents rb ++ ps := by
  induction ps generalizing rb with
  | nil => exact ⟨rb, rfl, hv, by simp⟩
  | cons x xs ih =>
    have hN : 0 < N := by omega
    have hnf : (rb.write_idx_ + 1) % rb.size ≠ rb.read_idx_ := by
      intro hfull
      have hl := (full_iff N rb hv).mp hfull
      simp only [List.length_cons] at hroom
      omega
    have hpush := TryPush_not_full rb x hnf
    have hv' := Valid_TryPush N rb x hv hN
    have hc' := contents_TryPush N rb x hv hnf
    have hlen : liveLen (TryPush rb x).2 = liveLen rb + 1 := by
      have hcl := congrArg List.length hc'
      simp only [length_contents, List.length_append, List.length_cons,
        List.length_nil] at hcl
      omega
    have hroom' : liveLen (TryPush rb x).2 + xs.length + 1 ≤ N := by
      simp only [List.length_cons] at hroom
      omega
    obtain ⟨rb', hrun, hv2, hc2⟩ := ih (TryPush rb x).2 hv' hroom'
    refine ⟨rb', ?_, hv2, ?_⟩
    · rw [← hrun]
      apply pushList_cons_true rb (TryPush rb x).2 x xs
      rw [hpush]
    · rw [hc2, hc']
      simp

/-- A fully successful `pushList` appends `ps` to the live contents. -/
lemma pushList_contents {α : Type} [Inhabited α] (N : Nat) (hN : 0 < N)
    (ps : List α) (rb rb' : LockFreeRingBuffer α) (hv : Valid N rb)
    (hrun : pushList rb ps = some rb') :
    Valid N rb' ∧ contents rb' = contents rb ++ ps := by
  induction ps generalizing rb with
  | nil =>
    have hrb : rb = rb' := by
      simpa [pushList] using hrun
    subst hrb
    exact ⟨hv, by simp⟩
  | cons x xs ih =>
    by_cases hf : (rb.write_idx_ + 1) % rb.size = rb.read_idx_
    · rw [pushList_cons_false rb rb x xs (TryPush_full rb x hf)] at hrun
      cases hrun
    · have hpush := TryPush_not_full rb x hf
      rw [pushList_cons_true rb (TryPush rb x).2 x xs (by rw [hpush])] at hrun
      have hv' := Valid_TryPush N rb x hv hN
      have hc' := contents_TryPush N rb x hv hf
      obtain ⟨hvr, hcr⟩ := ih (TryPush rb x).2 hv' hrun
      refine ⟨hvr, ?_⟩
      rw [hcr, hc']
      simp

/-- Popping as many times as there are live elements returns exactly the
live contents, in order. -/
lemma popN_spec {α : Type} [Inhabited α] (N : Nat) (hN : 0 < N)
    (vs : List α) (rb : LockFreeRingBuffer α) (hv : Valid N rb)
    (hc : contents rb = vs) : (popN rb vs.length).1 = vs := by
  induction vs generalizing rb with
  | nil => rfl
  | cons v vs ih =>
    have hne : rb.read_idx_ ≠ rb.write_idx_ := by
      intro he
      have h0 := (empty_iff N rb hv).mp he
      have hcl := congrArg List.length hc
      rw [length_contents] at hcl
      simp only [List.length_cons] at hcl
      omega
    have hpop := TryPop_nonempty rb default hne
    have hcp := contents_TryPop N rb default hv hne
    rw [hpop] at hcp
    dsimp only at hcp
    rw [hc] at hcp
    rw [List.cons.injEq] at hcp
    obtain ⟨hv1, hc1⟩ := hcp
    have hvalS : Valid N { rb with read_idx_ := (rb.read_idx_ + 1) % rb.size } := by
      have hvp := Valid_TryPop N rb default hv hN
      rw [hpop] at hvp
      exact hvp
    have hpop' : TryPop rb default =
        (true, { rb with read_idx_ := (rb.read_idx_ + 1) % rb.size }, v) := by
      rw [hpop, hv1]
    simp only [List.length_cons]
    rw [popN_succ_true rb _ v vs.length hpop']
    dsimp only
    rw [ih _ hvalS hc1.symm]

/-- States of the capacity-4 scenario of `basic_functionality_test`
(elements renamed A…F ↦ 1…6). -/
def c6s0 : LockFreeRingBuffer Nat := LockFreeRingBuffer.new Nat 4

def c6s1 : LockFreeRingBuffer Nat := (TryPush c6s0 1).2

def c6s2 : LockFreeRingBuffer Nat := (TryPush c6s1 2).2

def c6s3 : LockFreeRingBuffer Nat := (TryPush c6s2 3).2

def c6s4 : LockFreeRingBuffer Nat := (TryPop c6s3 0).2.1

def c6s5 : LockFreeRingBuffer Nat := (TryPop c6s4 0).2.1

def c6s6 : LockFreeRingBuffer Nat := (TryPush c6s5 4).2

def c6s7 : LockFreeRingBuffer Nat := (TryPush c6s6 5).2

def c6s8 : LockFreeRingBuffer Nat := (TryPop c6s7 0).2.1

def c6s9 : LockFreeRingBuffer Nat := (TryPop c6s8 0).2.1

def c6s10 : LockFreeRingBuffer Nat := (TryPop c6s9 0).2.1

/-- C1: for every capacity `N ≥ 2` and every sequence of `k` successful
`TryPush` calls with items `p1, …, pk` (starting from an empty buffer)
with no interleaved pops, a subsequent sequence of `k` `TryPop` calls
succeeds and returns exactly `p1, …, pk` in that order. -/
theorem C1_fifo_order {α : Type} [Inhabited α] (N : Nat) (hN : 2 ≤ N)
    (rb : LockFreeRingBuffer α) (hv : Valid N rb)
    (hempty : rb.read_idx_ = rb.write_idx_)
    (ps : List α) (rb' : LockFreeRingBuffer α)
    (hpush : pushList rb ps = some rb') :
    (popN rb' ps.length).1 = ps := by
  have hN0 : 0 < N := by omega
  obtain ⟨hv', hc'⟩ := pushList_contents N hN0 ps rb rb' hv hpush
  have hc0 : contents rb = [] := by
    have h0 : liveLen rb = 0 := (empty_iff N rb hv).mp hempty
    have := length_contents rb
    rw [h0] at this
    exact List.eq_nil_of_length_eq_zero this
  rw [hc0, List.nil_append] at hc'
  exact popN_spec N hN0 ps rb' hv' hc'

/-- C1 witness: pushing `[10, 20, 30]` into a fresh capacity-4 buffer
yields the state `⟨4, 3, 0, [10, 20, 30, 0]⟩`, and three pops return
`[10, 20, 30]`. -/
theorem C1_fifo_order_witness :
    (popN (⟨4, 3, 0, [10, 20, 30, 0]⟩ : LockFreeRingBuffer Nat) 3).1 =
      [10, 20, 30] :=
  C1_fifo_order 4 (by decide) (LockFreeRingBuffer.new Nat 4)
    ⟨rfl, by decide, by decide, rfl⟩ rfl [10, 20, 30]
    ⟨4, 3, 0, [10, 20, 30, 0]⟩ (by decide)

/-- C2: in every state reachable from a fresh buffer of capacity `N`,
the buffer is empty (`TryPop` fails) iff `read_cursor = write_cursor`,
full (`TryPush` fails) iff `(write_cursor + 1) % N = read_cursor`, and
both cursors lie in `[0, N)`. -/
theorem C2_cursor_invariants {α : Type} [Inhabited α] (N : Nat)
    (hN : 2 ≤ N) (rb : LockFreeRingBuffer α) (h : Reachable α N rb) :
    ((∀ o, (TryPop rb o).1 = false) ↔ rb.read_idx_ = rb.write_idx_) ∧
    ((∀ x, (TryPush rb x).1 = false) ↔
      (rb.write_idx_ + 1) % N = rb.read_idx_) ∧
    rb.read_idx_ < N ∧ rb.write_idx_ < N := by
  obtain ⟨hsz, hw, hr, hb⟩ := reachable_valid N (by omega) rb h
  refine ⟨⟨?_, ?_⟩, ⟨?_, ?_⟩, hr, hw⟩
  · intro hall
    by_contra hne
    have h1 := hall default
    rw [TryPop_nonempty rb default hne] at h1
    simp at h1
  · intro he o
    rw [TryPop_empty rb o he]
  · intro hall
    by_contra hne
    rw [← hsz] at hne
    have h1 := hall default
    rw [TryPush_not_full rb default hne] at h1
    simp at h1
  · intro hful x
    rw [← hsz] at hful
    rw [TryPush_full rb x hful]

/-- C2 witness: the fresh capacity-4 buffer is a reachable state; its
pop-failure test, push-failure test and cursor bounds are as claimed. -/
theorem C2_cursor_invariants_witness :
    ((∀ o, (TryPop (LockFreeRingBuffer.new Nat 4) o).1 = false) ↔
      (LockFreeRingBuffer.new Nat 4).read_idx_ =
        (LockFreeRingBuffer.new Nat 4).write_idx_) ∧
    ((∀ x, (TryPush (LockFreeRingBuffer.new Nat 4) x).1 = false) ↔
      ((LockFreeRingBuffer.new Nat 4).write_idx_ + 1) % 4 =
        (LockFreeRingBuffer.new Nat 4).read_idx_) ∧
    (LockFreeRingBuffer.new Nat 4).read_idx_ < 4 ∧
    (LockFreeRingBuffer.new Nat 4).write_idx_ < 4 :=
  C2_cursor_invariants 4 (by decide) (LockFreeRingBuffer.new Nat 4)
    Reachable.fresh

/-- C3: for every capacity `N ≥ 2`, starting from a fresh buffer, every
sequence of `N - 1` consecutive `TryPush` calls succeeds with no
intervening pop, and the `N`-th `TryPush` returns `false`. -/
theorem C3_capacity_bound {α : Type} [Inhabited α] (N : Nat) (hN : 2 ≤ N)
    (ps : List α) (hlen : ps.length = N - 1) :
    ∃ rb', pushList (LockFreeRingBuffer.new α N) ps = some rb' ∧
      ∀ y, (TryPush rb' y).1 = false := by
  have hN0 : 0 < N := by omega
  have hv := Valid_new α N hN0
  have hl0 : liveLen (LockFreeRingBuffer.new α N) = 0 := by
    simp [liveLen, LockFreeRingBuffer.new]
  have hroom : liveLen (LockFreeRingBuffer.new α N) + ps.length + 1 ≤ N := by
    omega
  obtain ⟨rb', hrun, hv', hc'⟩ :=
    pushList_ok N ps (LockFreeRingBuffer.new α N) hv hroom
  refine ⟨rb', hrun, ?_⟩
  intro y
  have hc0 : contents (LockFreeRingBuffer.new α N) = [] := by
    have := length_contents (LockFreeRingBuffer.new α N)
    rw [hl0] at this
    exact List.eq_nil_of_length_eq_zero this
  have hfull : liveLen rb' = N - 1 := by
    have hcl := congrArg List.length hc'
    rw [length_contents, hc0, List.nil_append] at hcl
    omega
  rw [TryPush_full rb' y ((full_iff N rb' hv').mpr hfull)]

/-- C3 witness: on a fresh capacity-4 buffer, pushing three items
succeeds and a fourth push fails. -/
theorem C3_capacity_bound_witness :
    ∃ rb', pushList (LockFreeRingBuffer.new Nat 4) [10, 20, 30] = some rb' ∧
      ∀ y, (TryPush rb' y).1 = false :=
  C3_capacity_bound 4 (by decide) [10, 20, 30] (by decide)

/-- C4: if the buffer is full (`(write + 1) % N = read`), `TryPush`
returns `false` and leaves the entire state unchanged, retaining nothing
of the item; otherwise it writes the item into the slot at the current
write cursor, advances the write cursor by one mod `N`, changes nothing
else, and returns `true`. -/
theorem C4_trypush_contract {α : Type} (rb : LockFreeRingBuffer α) (x : α) :
    ((rb.write_idx_ + 1) % rb.size = rb.read_idx_ →
       (TryPush rb x).1 = false ∧ (TryPush rb x).2 = rb) ∧
    ((rb.write_idx_ + 1) % rb.size ≠ rb.read_idx_ →
       (TryPush rb x).1 = true ∧
       (TryPush rb x).2.write_idx_ = (rb.write_idx_ + 1) % rb.size ∧
       (TryPush rb x).2.read_idx_ = rb.read_idx_ ∧
       (TryPush rb x).2.buffer_ = rb.buffer_.set rb.write_idx_ x ∧
       (TryPush rb x).2.size = rb.size) := by
  constructor
  · intro h
    rw [TryPush_full rb x h]
    exact ⟨rfl, rfl⟩
  · intro h
    rw [TryPush_not_full rb x h]
    exact ⟨rfl, rfl, rfl, rfl, rfl⟩

/-- C4 witness: at the full state `⟨4, 3, 0, [1, 2, 3, 0]⟩` a push fails;
at the fresh capacity-4 buffer a push succeeds. -/
theorem C4_trypush_contract_witness :
    ((TryPush (⟨4, 3, 0, [1, 2, 3, 0]⟩ : LockFreeRingBuffer Nat) 9).1 =
      false ∧
     (TryPush (⟨4, 3, 0, [1, 2, 3, 0]⟩ : LockFreeRingBuffer Nat) 9).2 =
      ⟨4, 3, 0, [1, 2, 3, 0]⟩) ∧
    (TryPush (LockFreeRingBuffer.new Nat 4) 9).1 = true :=
  ⟨(C4_trypush_contract (⟨4, 3, 0, [1, 2, 3, 0]⟩ : LockFreeRingBuffer Nat)
      9).1 (by decide),
   ((C4_trypush_contract (LockFreeRingBuffer.new Nat 4) 9).2 (by decide)).1⟩

/-- C5: if the buffer is empty (`read = write`), `TryPop` returns
`false` and leaves the state and the output object unchanged; otherwise
it returns the value stored at the current read cursor, advances the
read cursor by one mod `N`, changes nothing else, and returns `true`. -/
theorem C5_trypop_contract {α : Type} [Inhabited α]
    (rb : LockFreeRingBuffer α) (o : α) :
    (rb.read_idx_ = rb.write_idx_ → TryPop rb o = (false, rb, o)) ∧
    (rb.read_idx_ ≠ rb.write_idx_ →
       (TryPop rb o).1 = true ∧
       (TryPop rb o).2.2 = rb.buffer_.getD rb.read_idx_ default ∧
       (TryPop rb o).2.1.read_idx_ = (rb.read_idx_ + 1) % rb.size ∧
       (TryPop rb o).2.1.write_idx_ = rb.write_idx_ ∧
       (TryPop rb o).2.1.buffer_ = rb.buffer_ ∧
       (TryPop rb o).2.1.size = rb.size) := by
  constructor
  · intro h
    exact TryPop_empty rb o h
  · intro h
    rw [TryPop_nonempty rb o h]
    exact ⟨rfl, rfl, rfl, rfl, rfl, rfl⟩

/-- C5 witness: at the fresh capacity-4 buffer a pop fails and changes
nothing; at the state `⟨4, 3, 0, [1, 2, 3, 0]⟩` a pop succeeds. -/
theorem C5_trypop_contract_witness :
    TryPop (LockFreeRingBuffer.new Nat 4) 99 =
      (false, LockFreeRingBuffer.new Nat 4, 99) ∧
    (TryPop (⟨4, 3, 0, [1, 2, 3, 0]⟩ : LockFreeRingBuffer Nat) 0).1 = true :=
  ⟨(C5_trypop_contract (LockFreeRingBuffer.new Nat 4) 99).1 rfl,
   ((C5_trypop_contract (⟨4, 3, 0, [1, 2, 3, 0]⟩ : LockFreeRingBuffer Nat)
      0).2 (by decide)).1⟩

/-- C6: on a fresh buffer of capacity 4 the exact operation sequence of
`basic_functionality_test` behaves as specified: pushes 1, 2, 3 succeed;
push 4 fails; pops return 1 then 2; pushes 4, 5 succeed; push 6 fails;
the next three pops return 3, 4, 5 in order; a final pop fails. -/
theorem C6_concrete_scenario :
    (TryPush c6s0 1).1 = true ∧
    (TryPush c6s1 2).1 = true ∧
    (TryPush c6s2 3).1 = true ∧
    TryPush c6s3 4 = (false, c6s3) ∧
    (TryPop c6s3 0).1 = true ∧ (TryPop c6s3 0).2.2 = 1 ∧
    (TryPop c6s4 0).1 = true ∧ (TryPop c6s4 0).2.2 = 2 ∧
    (TryPush c6s5 4).1 = true ∧
    (TryPush c6s6 5).1 = true ∧
    TryPush c6s7 6 = (false, c6s7) ∧
    (TryPop c6s7 0).1 = true ∧ (TryPop c6s7 0).2.2 = 3 ∧
    (TryPop c6s8 0).1 = true ∧ (TryPop c6s8 0).2.2 = 4 ∧
    (TryPop c6s9 0).1 = true ∧ (TryPop c6s9 0).2.2 = 5 ∧
    TryPop c6s10 0 = (false, c6s10, 0) := by
  decide

/-- Every reachable state of a capacity-1 buffer is the fresh state:
pushes and pops on it always fail and leave it unchanged. -/
lemma reachable_one_eq {α : Type} [Inhabited α] (rb : LockFreeRingBuffer α)
    (h : Reachable α 1 rb) : rb = LockFreeRingBuffer.new α 1 := by
  induction h with
  | fresh => rfl
  | push rb x _ ih =>
    subst ih
    rw [TryPush_full (LockFreeRingBuffer.new α 1) x (by simp [LockFreeRingBuffer.new])]
  | pop rb o _ ih =>
    subst ih
    rw [TryPop_empty (LockFreeRingBuffer.new α 1) o rfl]

/-- C7: a buffer instantiated with capacity 1 can never hold a usable
element: in every reachable state every `TryPush` returns `false` (the
full condition `(write + 1) % 1 = read` holds there), so every `TryPop`
also fails. -/
theorem C7_capacity_one_unusable {α : Type} [Inhabited α]
    (rb : LockFreeRingBuffer α) (h : Reachable α 1 rb) :
    (∀ x, (TryPush rb x).1 = false) ∧
    (rb.write_idx_ + 1) % 1 = rb.read_idx_ ∧
    (∀ o, (TryPop rb o).1 = false) := by
  have he := reachable_one_eq rb h
  subst he
  refine ⟨?_, by simp [LockFreeRingBuffer.new], ?_⟩
  · intro x
    rw [TryPush_full (LockFreeRingBuffer.new α 1) x (by simp [LockFreeRingBuffer.new])]
  · intro o
    rw [TryPop_empty (LockFreeRingBuffer.new α 1) o rfl]

/-- C7 witness: the fresh capacity-1 buffer rejects every push and every
pop. -/
theorem C7_capacity_one_unusable_witness :
    (∀ x, (TryPush (LockFreeRingBuffer.new Nat 1) x).1 = false) ∧
    ((LockFreeRingBuffer.new Nat 1).write_idx_ + 1) % 1 =
      (LockFreeRingBuffer.new Nat 1).read_idx_ ∧
    (∀ o, (TryPop (LockFreeRingBuffer.new Nat 1) o).1 = false) :=
  C7_capacity_one_unusable (LockFreeRingBuffer.new Nat 1) Reachable.fresh

/-- C9: when `TryPop` fails because the buffer is empty, it never writes
through its output pointer: the caller's output object and the whole
buffer state are exactly as before the call. -/
theorem C9_trypop_empty_frame {α : Type} [Inhabited α]
    (rb : LockFreeRingBuffer α) (o : α)
    (h : rb.read_idx_ = rb.write_idx_) :
    TryPop rb o = (false, rb, o) :=
  TryPop_empty rb o h

/-- C9 witness: popping the fresh capacity-4 buffer with output object
`99` fails and returns the output object unchanged. -/
theorem C9_trypop_empty_frame_witness :
    TryPop (LockFreeRingBuffer.new Nat 4) 99 =
      (false, LockFreeRingBuffer.new Nat 4, 99) :=
  C9_trypop_empty_frame (LockFreeRingBuffer.new Nat 4) 99 rfl

/-- C10: a successful `TryPush` modifies only the slot at the pre-call
write cursor and the write cursor itself — the read cursor, the size and
every other slot are unchanged; symmetrically a successful `TryPop`
never modifies the write cursor (nor any slot or the size). -/
theorem C10_frame_effects {α : Type} [Inhabited α]
    (rb : LockFreeRingBuffer α) (x o : α) :
    ((TryPush rb x).1 = true →
       (TryPush rb x).2.read_idx_ = rb.read_idx_ ∧
       (TryPush rb x).2.size = rb.size ∧
       (TryPush rb x).2.write_idx_ = (rb.write_idx_ + 1) % rb.size ∧
       ∀ i, i ≠ rb.write_idx_ →
         (TryPush rb x).2.buffer_.getD i default =
           rb.buffer_.getD i default) ∧
    ((TryPop rb o).1 = true →
       (TryPop rb o).2.1.write_idx_ = rb.write_idx_ ∧
       (TryPop rb o).2.1.buffer_ = rb.buffer_ ∧
       (TryPop rb o).2.1.size = rb.size) := by
  constructor
  · intro hs
    by_cases h : (rb.write_idx_ + 1) % rb.size = rb.read_idx_
    · rw [TryPush_full rb x h] at hs
      simp at hs
    · rw [TryPush_not_full rb x h]
      refine ⟨rfl, rfl, rfl, ?_⟩
      intro i hi
      dsimp only
      rw [List.getD_eq_getElem?_getD, List.getD_eq_getElem?_getD,
        List.getElem?_set_ne (Ne.symm hi)]
  · intro hs
    by_cases h : rb.read_idx_ = rb.write_idx_
    · rw [TryPop_empty rb o h] at hs
      simp at hs
    · rw [TryPop_nonempty rb o h]
      exact ⟨rfl, rfl, rfl⟩

/-- C10 witness: a successful push on the fresh capacity-4 buffer keeps
the read cursor; a successful pop at `⟨4, 3, 0, [1, 2, 3, 0]⟩` keeps the
write cursor. -/
theorem C10_frame_effects_witness :
    (TryPush (LockFreeRingBuffer.new Nat 4) 7).2.read_idx_ =
      (LockFreeRingBuffer.new Nat 4).read_idx_ ∧
    (TryPop (⟨4, 3, 0, [1, 2, 3, 0]⟩ : LockFreeRingBuffer Nat)
      0).2.1.write_idx_ = 3 :=
  ⟨((C10_frame_effects (LockFreeRingBuffer.new Nat 4) 7 0).1
      (by decide)).1,
   ((C10_frame_effects (⟨4, 3, 0, [1, 2, 3, 0]⟩ : LockFreeRingBuffer Nat)
      7 0).2 (by decide)).1⟩

